import Mathlib

/-!
Verification development for the atomate workflow-assembly modules
(`atomate/vasp/workflows/base/dispersion.py`,
`atomate/vasp/workflows/base/thermal_conductivity.py`,
`atomate/vasp/fireworks/user.py`).

The Python code is shallowly embedded: Python dicts over string keys become
association lists with Python's update/pop semantics, VASP input-set objects
become records of their settings categories, and the two workflow assemblers
become pure functions returning `Except` (a raised exception is `.error`).
-/

namespace Atomate

/-- Value type for the settings dictionaries appearing in the embedded code.
Numeric INCAR values (`IBRION`, `EDIFF`, `POTIM`, ...) are integers or exact
rationals, k-point grids are integer lists, and `vnone` models Python `None`. -/
inductive Val where
  | vint : Int → Val
  | vrat : ℚ → Val
  | vstr : String → Val
  | vbool : Bool → Val
  | vilist : List Int → Val
  | vnone : Val
  deriving DecidableEq, Repr

/-- Python truthiness of a value, as used by `settings.get('kpts')` tests. -/
def Val.truthy : Val → Bool
  | .vint z => z != 0
  | .vrat q => q != 0
  | .vstr s => s != ""
  | .vbool b => b
  | .vilist l => !l.isEmpty
  | .vnone => false

/-- A Python dict with string keys, as an association list in insertion order.
Dicts built by the embedded code never carry duplicate keys. -/
def Dict : Type := List (String × Val)

instance : DecidableEq Dict := inferInstanceAs (DecidableEq (List (String × Val)))
instance : Repr Dict := inferInstanceAs (Repr (List (String × Val)))

namespace Dict

/-- Python `d[k]` / `d.get(k)`: the value at the first occurrence of `k`. -/
def get? : Dict → String → Option Val
  | [], _ => none
  | (k', v) :: rest, k => if k' = k then some v else get? rest k

/-- Python `k in d`. -/
def containsKey (d : Dict) (k : String) : Bool :=
  (d.get? k).isSome

/-- Python `d[k] = v`: replace the value at the first occurrence of `k`
in place, else append the new binding. -/
def insert : Dict → String → Val → Dict
  | [], k, v => [(k, v)]
  | (k', v') :: rest, k, v =>
    if k' = k then (k, v) :: rest else (k', v') :: insert rest k v

/-- Python `d.update(other)`: bind each key of `other`, in order, into `d`. -/
def update (d other : Dict) : Dict :=
  other.foldl (fun acc p => acc.insert p.1 p.2) d

/-- Python `d.pop(k, default)`: the value at `k` (if any) and the dict with
the first occurrence of `k` removed. -/
def pop : Dict → String → Option Val × Dict
  | [], _ => (none, [])
  | (k', v) :: rest, k =>
    if k' = k then (some v, rest)
    else
      let r := pop rest k
      (r.1, (k', v) :: r.2)

/-- Python truthiness of a dict: nonempty. -/
def truthy (d : Dict) : Bool :=
  !(List.isEmpty d)

@[simp] theorem get?_nil (k : String) : get? ([] : Dict) k = none := rfl

@[simp] theorem get?_cons (k' k : String) (v : Val) (rest : List (String × Val)) :
    get? ((k', v) :: rest : Dict) k = if k' = k then some v else get? rest k := rfl

theorem get?_insert_self (d : Dict) (k : String) (v : Val) :
    get? (insert d k v) k = some v := by
  induction d with
  | nil => simp [insert, get?]
  | cons hd tl ih =>
    obtain ⟨k', v'⟩ := hd
    by_cases h : k' = k
    · simp [insert, h, get?]
    · simp [insert, h, get?, ih]

theorem get?_insert_ne (d : Dict) (k k' : String) (v : Val) (hne : k ≠ k') :
    get? (insert d k v) k' = get? d k' := by
  induction d with
  | nil => simp [insert, get?, hne]
  | cons hd tl ih =>
    obtain ⟨k₀, v₀⟩ := hd
    by_cases h : k₀ = k
    · subst h
      simp [insert, get?, hne]
    · simp only [insert, if_neg h]
      by_cases h' : k₀ = k'
      · simp [get?, h']
      · simp [get?, h', ih]

/-- Inserting a binding the dict already holds at its first occurrence of the
key leaves the dict unchanged. -/
theorem insert_eq_self_of_get? (d : Dict) (k : String) (v : Val)
    (h : get? d k = some v) : insert d k v = d := by
  induction d with
  | nil => simp [get?] at h
  | cons hd tl ih =>
    obtain ⟨k', v'⟩ := hd
    by_cases hk : k' = k
    · subst hk
      simp only [get?, if_pos, Option.some.injEq] at h
      simp [insert, h]
    · simp only [get?, if_neg hk] at h
      simp [insert, hk, ih h]

end Dict

/-! ### VASP input sets

A pymatgen `VaspInputSet` is embedded by the parts of its serialized
(`as_dict`) form that the assemblers touch: the `user_incar_settings` and
`user_kpoints_settings` categories, plus an opaque remainder (`rest`) that the
assemblers copy through untouched. -/

/-- Embedded state of a VASP input set / its serialized dict form. -/
@[ext]
structure VaspInputSet where
  user_incar_settings : Dict
  user_kpoints_settings : Dict
  rest : Dict
  deriving DecidableEq, Repr

/-- Model of pymatgen `MSONable.as_dict`: serialization recursively converts
every nested mapping into a fresh dict, so the returned dict shares no mutable
state with the input-set object. In the pure embedding this is the identity on
the record value. -/
def VaspInputSet.as_dict (v : VaspInputSet) : VaspInputSet := v

/-- Model of `vis_orig.__class__.from_dict`: rebuild an input set from its
serialized dict form. -/
def VaspInputSet.from_dict (d : VaspInputSet) : VaspInputSet := d

/-- Model of the external default `MPRelaxSet(structure, force_gamma=True)`
used when no `vasp_input_set` argument is given (no user INCAR or KPOINTS
overrides). -/
def MPRelaxSet_force_gamma : VaspInputSet :=
  { user_incar_settings := []
    user_kpoints_settings := []
    rest := [("force_gamma", Val.vbool true)] }

/-- Common convergence override `uis_common = {"EDIFF": 1E-08}`
(dispersion.py line 55, thermal_conductivity.py line 58). -/
def uis_common : Dict := [("EDIFF", Val.vrat (1 / 100000000))]

/-- Mode-specific INCAR constants for `mode == "force"`
(dispersion.py line 82, thermal_conductivity.py lines 82 and 116). -/
def uisForce : Dict :=
  [("IBRION", Val.vint 2), ("ISMEAR", Val.vint 0),
   ("ISPIN", Val.vint 1), ("NSW", Val.vint 0)]

/-- Mode-specific INCAR constants for `mode == "hessian"`
(dispersion.py line 95, thermal_conductivity.py line 98). -/
def uisHessian : Dict :=
  [("IBRION", Val.vint 6), ("ISMEAR", Val.vint 0), ("ISPIN", Val.vint 1),
   ("NSW", Val.vint 1), ("POTIM", Val.vrat (15 / 1000))]

/-- Relaxation-phase settings derivation (dispersion.py lines 59–65,
thermal_conductivity.py lines 62–68): serialize, merge `uis_common` into the
`user_incar_settings` category, override `user_kpoints_settings` when the
argument is truthy, deserialize. -/
def deriveRelaxVis (vis_orig : VaspInputSet) (user_kpoints_settings : Dict) :
    VaspInputSet :=
  let vis_relax_dict := vis_orig.as_dict
  let uis_relax := (vis_relax_dict.user_incar_settings).update uis_common
  let vis_relax_dict := { vis_relax_dict with user_incar_settings := uis_relax }
  let vis_relax_dict :=
    if user_kpoints_settings.truthy then
      { vis_relax_dict with user_kpoints_settings := user_kpoints_settings }
    else vis_relax_dict
  VaspInputSet.from_dict vis_relax_dict

/-- Dispersion/third-order settings derivation (dispersion.py lines 75–84 and
94–97, thermal_conductivity.py lines 74–84, 97–100 and 111–118): serialize,
override `user_kpoints_settings` when truthy, merge `uis_common` and then the
given mode-specific constants into `user_incar_settings`, deserialize. -/
def deriveDispVis (vis_orig : VaspInputSet) (user_kpoints_settings : Dict)
    (modeDict : Dict) : VaspInputSet :=
  let d := vis_orig.as_dict
  let d :=
    if user_kpoints_settings.truthy then
      { d with user_kpoints_settings := user_kpoints_settings }
    else d
  let uis_disp := ((d.user_incar_settings).update uis_common).update modeDict
  VaspInputSet.from_dict { d with user_incar_settings := uis_disp }

/-! ### Workflow graphs

Fireworks are embedded as records holding the construction-order id, the task
kind, the parent ids, and the payload fields the assemblers pass to the
external constructors. -/

/-- Task kinds of the units the two assemblers construct. -/
inductive FwKind where
  | optimize
  | dispersion
  | dispersionAnalysis
  | dispersionPassAnalysis
  | thirdOrder
  | thermalConductivity
  deriving DecidableEq, Repr

/-- Embedded Firework: `fwId` is the construction order within one assembly
call; `parents` lists the `fwId`s of the parent units. -/
structure Firework where
  fwId : Nat
  kind : FwKind
  parents : List Nat
  vis : Option VaspInputSet := none
  mode : Option String := none
  supercell : List (List Int) := []
  cutoff : Option ℚ := none
  name : Option String := none
  tag : String := ""
  vasp_cmd : String := ""
  db_file : Option String := none
  third_cmd : Option String := none
  deriving DecidableEq, Repr

/-- Embedded Workflow: the unit list in construction order plus the name. -/
structure Workflow where
  fws : List Firework
  name : String
  deriving DecidableEq, Repr

/-- Errors raised by the assemblers: the `ValueError` for an unsupported mode
(the spec's InvalidModeError). -/
inductive WfError where
  | invalidMode : String → WfError
  deriving DecidableEq, Repr

/-- Embedding of `get_wf_dispersion` (dispersion.py lines 26–107). The
timestamp tag is passed in as a parameter; a raised exception is `.error`. -/
def get_wf_dispersion (formula : String) (vasp_input_set : Option VaspInputSet)
    (vasp_cmd : String) (db_file : Option String) (mode : String)
    (supercell : List (List Int)) (user_kpoints_settings : Dict)
    (optimize_structure : Bool) (tag : String) : Except WfError Workflow :=
  let vis_orig := vasp_input_set.getD MPRelaxSet_force_gamma
  let st : List Firework × List Nat :=
    if optimize_structure then
      let vis_relax := deriveRelaxVis vis_orig user_kpoints_settings
      let fw1 : Firework :=
        if mode = "force" then
          { fwId := 0, kind := .optimize, parents := [], vis := some vis_relax,
            vasp_cmd := vasp_cmd, db_file := db_file,
            name := some (tag ++ " structure optimization") }
        else
          { fwId := 0, kind := .optimize, parents := [], vis := some vis_relax,
            vasp_cmd := vasp_cmd, db_file := db_file }
      ([fw1], [0])
    else ([], [])
  let fws := st.1
  let parent2 := st.2
  let n := fws.length
  if mode = "force" then
    let vis_disp := deriveDispVis vis_orig user_kpoints_settings uisForce
    let fw2 : Firework :=
      { fwId := n, kind := .dispersion, parents := parent2,
        vis := some vis_disp, vasp_cmd := vasp_cmd, db_file := db_file,
        mode := some mode, supercell := supercell,
        name := some (tag ++ " dispersion") }
    let fw3 : Firework :=
      { fwId := n + 1, kind := .dispersionAnalysis, parents := [n], tag := tag,
        db_file := db_file, mode := some mode, supercell := supercell,
        name := some (formula ++ "-dispersion_force: analysis") }
    .ok { fws := fws ++ [fw2, fw3], name := formula ++ "-dispersion" }
  else if mode = "hessian" then
    let vis_disp := deriveDispVis vis_orig user_kpoints_settings uisHessian
    let fw2 : Firework :=
      { fwId := n, kind := .dispersion, parents := parent2,
        vis := some vis_disp, vasp_cmd := vasp_cmd, db_file := db_file,
        mode := some mode, supercell := supercell }
    .ok { fws := fws ++ [fw2], name := formula ++ "-dispersion" }
  else
    .error (.invalidMode "Dispersion workflow mode should be force or hessian.")

/-- Embedding of `get_wf_thermal_conductivity` (thermal_conductivity.py lines
26–131). The third-order phase derives its settings with the same constants as
force-mode dispersion (lines 111–118), so it reuses `deriveDispVis _ _
uisForce`. -/
def get_wf_thermal_conductivity (formula : String)
    (vasp_input_set : Option VaspInputSet) (mode : String)
    (vasp_cmd third_cmd : String) (db_file : Option String)
    (supercell : List (List Int)) (cutoff_3rd : ℚ)
    (user_kpoints_settings : Dict) (optimize_structure : Bool) (tag : String) :
    Except WfError Workflow :=
  let vis_orig := vasp_input_set.getD MPRelaxSet_force_gamma
  let st : List Firework × List Nat :=
    if optimize_structure then
      let vis_relax := deriveRelaxVis vis_orig user_kpoints_settings
      let fw1 : Firework :=
        { fwId := 0, kind := .optimize, parents := [], vis := some vis_relax,
          vasp_cmd := vasp_cmd, db_file := db_file,
          name := some (tag ++ " structure optimization") }
      ([fw1], [0])
    else ([], [])
  let fws := st.1
  let parent1 := st.2
  let n := fws.length
  let branch : Except WfError (List Firework × List Nat) :=
    if mode = "force" then
      let vis_disp := deriveDispVis vis_orig user_kpoints_settings uisForce
      let fw2 : Firework :=
        { fwId := n, kind := .dispersion, parents := parent1,
          vis := some vis_disp, vasp_cmd := vasp_cmd, db_file := db_file,
          mode := some mode, supercell := supercell,
          name := some (tag ++ " dispersion") }
      let fw3 : Firework :=
        { fwId := n + 1, kind := .dispersionPassAnalysis, parents := [n],
          tag := tag, db_file := db_file, mode := some mode,
          supercell := supercell,
          name := some (formula ++ "-" ++ tag ++ " dispersion") }
      .ok (fws ++ [fw2, fw3], [n + 1])
    else if mode = "hessian" then
      let vis_disp := deriveDispVis vis_orig user_kpoints_settings uisHessian
      let fw2 : Firework :=
        { fwId := n, kind := .dispersion, parents := parent1,
          vis := some vis_disp, vasp_cmd := vasp_cmd, db_file := db_file,
          mode := some mode, supercell := supercell,
          name := some (tag ++ " dispersion") }
      .ok (fws ++ [fw2], [n])
    else
      .error (.invalidMode "Dispersion workflow mode should be force or hessian.")
  match branch with
  | .error e => .error e
  | .ok (fws2, parent2) =>
    let m := fws2.length
    let vis_third := deriveDispVis vis_orig user_kpoints_settings uisForce
    let fw4 : Firework :=
      { fwId := m, kind := .thirdOrder, parents := parent1,
        vis := some vis_third, vasp_cmd := vasp_cmd, db_file := db_file,
        third_cmd := some third_cmd, supercell := supercell,
        cutoff := some cutoff_3rd, name := some (tag ++ " thirdorder") }
    let parent2' := parent2 ++ [m]
    let fw5 : Firework :=
      { fwId := m + 1, kind := .thermalConductivity, parents := parent2',
        tag := tag, db_file := db_file, third_cmd := some third_cmd,
        supercell := supercell, cutoff := some cutoff_3rd,
        name := some (formula ++ "-thermal conductivity") }
    .ok { fws := (fws2 ++ [fw4]) ++ [fw5],
          name := formula ++ "-thermal conductivity" }

/-- Units of an assembly result: the unit list on success, the empty list on a
raised error (no partial graph escapes to the caller). -/
def wfUnits : Except WfError Workflow → List Firework
  | .ok w => w.fws
  | .error _ => []

/-- Number of units of a given kind in a unit list. -/
def countKind (k : FwKind) (fws : List Firework) : Nat :=
  fws.countP (fun fw => fw.kind == k)

/-- Units of a given kind, in construction order. -/
def unitsOfKind (k : FwKind) (fws : List Firework) : List Firework :=
  fws.filter (fun fw => fw.kind == k)

/-- Boolean check that every parent edge of every unit points at a unit
constructed earlier in the same assembly call (smaller `fwId`). -/
def acyclicOk (fws : List Firework) : Bool :=
  fws.all fun fw => fw.parents.all fun p =>
    fws.any fun fw2 => fw2.fwId == p && Nat.blt fw2.fwId fw.fwId

/-! ### MPRelaxSetEx (user.py lines 14–34) -/

/-- Embedded instance state of `MPRelaxSetEx`: the active INCAR category of
the per-instance `config_dict`, the KPOINTS category, the removed-settings
record `rm_config_dict["INCAR"]`, and the kpoints override parameter. -/
structure MPRelaxSetEx where
  config_INCAR : Dict
  config_KPOINTS : Dict
  rm_config_INCAR : Dict
  user_kpoints_settings : Dict
  deriving DecidableEq, Repr

/-- KPOINTS category of the external `MPRelaxSet.CONFIG` (pymatgen
`MPRelaxSet.yaml`): a reciprocal-density entry and no explicit `kpts` grid.
The base constructor deep-copies the config per instance. -/
def MPRelaxSet_CONFIG_KPOINTS : Dict := [("reciprocal_density", Val.vint 64)]

/-- Loop body of the removal loop in `MPRelaxSetEx.__init__` (user.py lines
23–26): on state (active INCAR dict, removed-settings record), pop the key
into the record when the active dict holds it, else do nothing. -/
def rmStep (st : Dict × Dict) (k : String) : Dict × Dict :=
  if (st.1).containsKey k then
    let p := (st.1).pop k
    (p.2, (st.2).insert k (p.1.getD Val.vnone))
  else st

/-- Embedding of `MPRelaxSetEx.__init__` (user.py lines 16–26):
`configINCAR` is the INCAR category of the external `MPRelaxSet.CONFIG`; each
listed key found in it is popped into the removed-settings record, in list
order; keys not found are skipped by the membership guard. -/
def mkMPRelaxSetEx (configINCAR : Dict) (rm_incar_settings : List String)
    (user_kpoints_settings : Dict) : MPRelaxSetEx :=
  let res := rm_incar_settings.foldl rmStep (configINCAR, ([] : Dict))
  { config_INCAR := res.1
    config_KPOINTS := MPRelaxSet_CONFIG_KPOINTS
    rm_config_INCAR := res.2
    user_kpoints_settings := user_kpoints_settings }

/-- Result of the `kpoints` property: an explicit gamma-centered uniform grid
(`Kpoints.gamma_automatic(kpts=tuple(...))`), the base class's default
k-point result, or the `TypeError` `tuple()` raises on a non-sequence. -/
inductive KpointsResult where
  | gammaAutomatic : List Int → KpointsResult
  | baseDefault : KpointsResult
  | tupleTypeError : KpointsResult
  deriving DecidableEq, Repr

/-- Embedding of the `kpoints` property (user.py lines 28–34): resolve the
settings dict with Python `or` (the override parameter when truthy, else the
KPOINTS category), then branch on the truthiness of `settings.get('kpts')`. -/
def MPRelaxSetEx.kpoints (self : MPRelaxSetEx) : KpointsResult :=
  let settings :=
    if self.user_kpoints_settings.truthy then self.user_kpoints_settings
    else self.config_KPOINTS
  match settings.get? "kpts" with
  | none => .baseDefault
  | some v =>
    if v.truthy then
      match v with
      | .vilist l => .gammaAutomatic l
      | _ => .tupleTypeError
    else .baseDefault

/-! ### OptimizeStepFW (user.py lines 67–119) -/

/-- Python exception raised during `OptimizeStepFW` construction. -/
inductive PyError where
  | typeError : String → PyError
  deriving DecidableEq, Repr

/-- Task steps appended to the `OptimizeStepFW` task list. The
write-from-structure step carries the keyword dict unpacked into it; the
other steps' payloads are irrelevant to the claims and elided. -/
inductive FwTask where
  | copyVaspOutputs
  | writeVaspRelaxFromStructure : Dict → FwTask
  | writeVaspFromIOSet
  | runVaspCustodian
  | passCalcLocs
  | vaspToDbTask
  deriving DecidableEq, Repr

/-- Embedded `OptimizeStepFW` object: its ordered task list and name. -/
structure OptimizeStepFirework where
  tasks : List FwTask
  name : String
  deriving DecidableEq, Repr

/-- Message of the `TypeError` Python raises for `f(**None)`. -/
def starStarNoneMsg : String := "argument after ** must be a mapping, not NoneType"

/-- Embedding of `OptimizeStepFW.__init__` (user.py lines 69–119). A truthy
`step_index` selects the copy-outputs branch whose
`WriteVaspRelaxFromStructure(..., **override_default_vasp_params)` call
unpacks the keyword dict, raising `TypeError` when it is `None`; in the
`step_index == 0` branch, `vasp_input_set or MPRelaxSetEx(structure,
force_gamma=True, **override_default_vasp_params)` evaluates the right
operand — and hence unpacks the dict — only when `vasp_input_set` is
`None`. -/
def OptimizeStepFW_init (formula : String) (step_index : Int) (name : String)
    (vasp_input_set : Option VaspInputSet)
    (override_default_vasp_params : Option Dict) :
    Except PyError OptimizeStepFirework :=
  let fwName := formula ++ "-" ++ name ++ "-Step" ++ toString (1 + step_index)
  if step_index ≠ 0 then
    match override_default_vasp_params with
    | none => .error (.typeError starStarNoneMsg)
    | some ov =>
      .ok { tasks := [.copyVaspOutputs, .writeVaspRelaxFromStructure ov,
                      .runVaspCustodian, .passCalcLocs, .vaspToDbTask],
            name := fwName }
  else
    match vasp_input_set with
    | some _ =>
      .ok { tasks := [.writeVaspFromIOSet, .runVaspCustodian, .passCalcLocs,
                      .vaspToDbTask],
            name := fwName }
    | none =>
      match override_default_vasp_params with
      | none => .error (.typeError starStarNoneMsg)
      | some _ =>
        .ok { tasks := [.writeVaspFromIOSet, .runVaspCustodian, .passCalcLocs,
                        .vaspToDbTask],
              name := fwName }

/-- Success test for an `Except` result. -/
def exceptIsOk {ε α : Type} : Except ε α → Bool
  | .ok _ => true
  | .error _ => false

/-! ### Heap model of the settings derivations

The frame-effect claim is about Python aliasing: the assemblers read the base
input set only through `as_dict`, which copies the nested
`user_incar_settings` mapping into a fresh dict, and every in-place
`.update(...)` in the assembly targets one of those fresh dicts. To make this
observable, the `user_incar_settings` dicts live in a store and are passed by
reference; the kpoints category is only ever rebound wholesale (never updated
in place), so it is carried by value. -/

/-- Store of Python dict objects; a reference is an index. -/
abbrev Store : Type := List Dict

/-- Input-set object (or its `as_dict` form) under the heap model: the INCAR
override category is the store cell `uisRef`. -/
structure VisRef where
  uisRef : Nat
  user_kpoints_settings : Dict
  rest : Dict
  deriving DecidableEq, Repr

/-- Allocate a fresh dict cell. -/
def alloc (s : Store) (d : Dict) : Nat × Store := (s.length, s ++ [d])

/-- Read a store cell (missing cells read as empty). -/
def storeGet (s : Store) (r : Nat) : Dict := List.getD s r []

/-- Overwrite a store cell in place. -/
def storeSet (s : Store) (r : Nat) (d : Dict) : Store := List.set s r d

/-- Heap model of `as_dict`: serialization copies the nested INCAR mapping
into a freshly allocated dict. -/
def VisRef.as_dict (o : VisRef) (s : Store) : VisRef × Store :=
  let a := alloc s (storeGet s o.uisRef)
  ({ o with uisRef := a.1 }, a.2)

/-- Heap model of the relaxation-phase derivation (dispersion.py lines 59–65,
thermal_conductivity.py lines 62–68): `uis_relax` aliases the
`user_incar_settings` cell of the `as_dict` copy and is updated in place. -/
def deriveRelaxVisH (s : Store) (vis_orig : VisRef) (ukps : Dict) :
    VisRef × Store :=
  let p := vis_orig.as_dict s
  let d := p.1
  let s1 := storeSet p.2 d.uisRef ((storeGet p.2 d.uisRef).update uis_common)
  let d1 := if ukps.truthy then { d with user_kpoints_settings := ukps } else d
  (d1, s1)

/-- Heap model of the shared prefix of the dispersion-phase derivation
(dispersion.py lines 75–79, thermal_conductivity.py lines 74–78 and 111–115):
serialize, rebind the kpoints category when truthy, update the copied INCAR
cell with `uis_common`. The mode-specific update is applied by the caller
inside the mode branch. -/
def deriveDispPrefixH (s : Store) (vis_orig : VisRef) (ukps : Dict) :
    VisRef × Store :=
  let p := vis_orig.as_dict s
  let d := p.1
  let d1 := if ukps.truthy then { d with user_kpoints_settings := ukps } else d
  let s1 := storeSet p.2 d.uisRef ((storeGet p.2 d.uisRef).update uis_common)
  (d1, s1)

/-- Heap model of a full settings derivation: the dispersion prefix followed
by the mode branch's in-place update of the copied INCAR cell with the
mode-specific constants (dispersion.py line 82 resp. 95). -/
def deriveModeH (s : Store) (vis_orig : VisRef) (ukps modeDict : Dict) :
    VisRef × Store :=
  let q := deriveDispPrefixH s vis_orig ukps
  (q.1, storeSet q.2 q.1.uisRef ((storeGet q.2 q.1.uisRef).update modeDict))

/-- Heap model of `get_wf_dispersion`'s effect on the store of settings
dicts: the relaxation derivation when `optimize_structure`, then the
dispersion derivation (prefix plus mode-specific update in a valid mode; the
prefix alone when the invalid-mode error fires after it already ran).
Firework construction itself allocates and mutates no settings cells, so the
workflow content is covered by the pure `get_wf_dispersion`. -/
def get_wf_dispersion_heap (s : Store) (vis_orig : VisRef) (mode : String)
    (ukps : Dict) (optimize_structure : Bool) : Except WfError Unit × Store :=
  let s0 := if optimize_structure then (deriveRelaxVisH s vis_orig ukps).2 else s
  if mode = "force" then
    (.ok (), (deriveModeH s0 vis_orig ukps uisForce).2)
  else if mode = "hessian" then
    (.ok (), (deriveModeH s0 vis_orig ukps uisHessian).2)
  else
    (.error (.invalidMode "Dispersion workflow mode should be force or hessian."),
     (deriveDispPrefixH s0 vis_orig ukps).2)

/-- Heap model of `get_wf_thermal_conductivity`'s effect on the store: as the
dispersion assembler, followed by the unconditional third-order derivation
(thermal_conductivity.py lines 111–118), which uses the force-mode
constants. -/
def get_wf_thermal_conductivity_heap (s : Store) (vis_orig : VisRef)
    (mode : String) (ukps : Dict) (optimize_structure : Bool) :
    Except WfError Unit × Store :=
  let r := get_wf_dispersion_heap s vis_orig mode ukps optimize_structure
  match r.1 with
  | .error e => (.error e, r.2)
  | .ok _ => (.ok (), (deriveModeH r.2 vis_orig ukps uisForce).2)

end Atomate

namespace Atomate

/-- C1: for `get_wf_dispersion` with `mode="force"` the returned graph has
exactly 2 units when `optimize_structure=False` (a dispersion unit and an
analysis unit) and exactly 3 when `True`; with `mode="hessian"` it has exactly
1 unit (`False`) or 2 units (`True`), and no analysis unit is ever appended in
hessian mode. -/
theorem claim_C1_dispersion_unit_counts (formula : String)
    (vis : Option VaspInputSet) (vc : String) (db : Option String)
    (sc : List (List Int)) (ukps : Dict) (tag : String) :
    (wfUnits (get_wf_dispersion formula vis vc db "force" sc ukps false tag)).length = 2 ∧
    countKind .dispersion
      (wfUnits (get_wf_dispersion formula vis vc db "force" sc ukps false tag)) = 1 ∧
    countKind .dispersionAnalysis
      (wfUnits (get_wf_dispersion formula vis vc db "force" sc ukps false tag)) = 1 ∧
    (wfUnits (get_wf_dispersion formula vis vc db "force" sc ukps true tag)).length = 3 ∧
    (wfUnits (get_wf_dispersion formula vis vc db "hessian" sc ukps false tag)).length = 1 ∧
    (wfUnits (get_wf_dispersion formula vis vc db "hessian" sc ukps true tag)).length = 2 ∧
    (∀ ob : Bool, countKind .dispersionAnalysis
      (wfUnits (get_wf_dispersion formula vis vc db "hessian" sc ukps ob tag)) = 0) := by
  refine ⟨rfl, rfl, rfl, rfl, rfl, rfl, fun ob => ?_⟩
  cases ob <;> rfl

/-- C2: every thermal-conductivity workflow (both valid modes, with or
without relaxation) has exactly one third-order unit whose parent list is
exactly the id list of the optimize units (the relaxation set P1, empty when
`optimize_structure=False`), and exactly one thermal-conductivity unit whose
parent list is the dispersion-branch terminal unit (the combined
pass-locations/analysis unit in force mode, the dispersion unit in hessian
mode) followed by the third-order unit. -/
theorem claim_C2_thermal_conductivity_parents (formula : String)
    (vis : Option VaspInputSet) (vc tc : String) (db : Option String)
    (sc : List (List Int)) (c : ℚ) (ukps : Dict) (tag : String) (ob : Bool) :
    ((unitsOfKind .thirdOrder
        (wfUnits (get_wf_thermal_conductivity formula vis "force" vc tc db sc c ukps ob tag))).map
          Firework.parents
      = [(unitsOfKind .optimize
          (wfUnits (get_wf_thermal_conductivity formula vis "force" vc tc db sc c ukps ob tag))).map
            Firework.fwId] ∧
     (unitsOfKind .thermalConductivity
        (wfUnits (get_wf_thermal_conductivity formula vis "force" vc tc db sc c ukps ob tag))).map
          Firework.parents
      = [((unitsOfKind .dispersionPassAnalysis
            (wfUnits (get_wf_thermal_conductivity formula vis "force" vc tc db sc c ukps ob tag))).map
              Firework.fwId)
          ++ ((unitsOfKind .thirdOrder
            (wfUnits (get_wf_thermal_conductivity formula vis "force" vc tc db sc c ukps ob tag))).map
              Firework.fwId)]) ∧
    ((unitsOfKind .thirdOrder
        (wfUnits (get_wf_thermal_conductivity formula vis "hessian" vc tc db sc c ukps ob tag))).map
          Firework.parents
      = [(unitsOfKind .optimize
          (wfUnits (get_wf_thermal_conductivity formula vis "hessian" vc tc db sc c ukps ob tag))).map
            Firework.fwId] ∧
     (unitsOfKind .thermalConductivity
        (wfUnits (get_wf_thermal_conductivity formula vis "hessian" vc tc db sc c ukps ob tag))).map
          Firework.parents
      = [((unitsOfKind .dispersion
            (wfUnits (get_wf_thermal_conductivity formula vis "hessian" vc tc db sc c ukps ob tag))).map
              Firework.fwId)
          ++ ((unitsOfKind .thirdOrder
            (wfUnits (get_wf_thermal_conductivity formula vis "hessian" vc tc db sc c ukps ob tag))).map
              Firework.fwId)]) := by
  cases ob <;> exact ⟨⟨rfl, rfl⟩, rfl, rfl⟩

/-- C3: calling either assembler with a mode other than "force" or "hessian"
raises the invalid-mode error (modelled as returning `.error`), so no workflow
graph — not even a partial one — reaches the caller. -/
theorem claim_C3_invalid_mode_raises (formula : String)
    (vis : Option VaspInputSet) (vc tc : String) (db : Option String)
    (sc : List (List Int)) (c : ℚ) (ukps : Dict) (ob : Bool) (tag : String)
    (mode : String) (h1 : mode ≠ "force") (h2 : mode ≠ "hessian") :
    get_wf_dispersion formula vis vc db mode sc ukps ob tag
      = .error (.invalidMode "Dispersion workflow mode should be force or hessian.") ∧
    get_wf_thermal_conductivity formula vis mode vc tc db sc c ukps ob tag
      = .error (.invalidMode "Dispersion workflow mode should be force or hessian.") := by
  constructor
  · simp only [get_wf_dispersion, if_neg h1, if_neg h2]
  · simp only [get_wf_thermal_conductivity, if_neg h1, if_neg h2]

/-- Witness for C3 at the concrete unsupported mode "bogus". -/
theorem claim_C3_witness :
    get_wf_dispersion "Si" none "vasp" none "bogus" [] [] true "t"
      = .error (.invalidMode "Dispersion workflow mode should be force or hessian.") ∧
    get_wf_thermal_conductivity "Si" none "bogus" "vasp" "third" none [] (-4) [] true "t"
      = .error (.invalidMode "Dispersion workflow mode should be force or hessian.") :=
  claim_C3_invalid_mode_raises "Si" none "vasp" "third" none [] (-4) [] true "t"
    "bogus" (by decide) (by decide)

/-- Projection of the dispersion-settings derivation to the INCAR category:
the kpoints override leaves `user_incar_settings` untouched, so the derived
INCAR overrides are the base category merged with `uis_common` and then with
the mode-specific constants. -/
theorem deriveDispVis_uis (vis : VaspInputSet) (ukps modeDict : Dict) :
    (deriveDispVis vis ukps modeDict).user_incar_settings
      = (vis.user_incar_settings.update uis_common).update modeDict := by
  by_cases h : ukps.truthy <;>
    simp [deriveDispVis, VaspInputSet.as_dict, VaspInputSet.from_dict, h]

/-- C5: for both valid modes the derived dispersion-phase INCAR settings hold
the common convergence override `EDIFF = 1e-08` together with the
mode-specific constants (force: IBRION=2, ISMEAR=0, ISPIN=1, NSW=0; hessian:
IBRION=6, ISMEAR=0, ISPIN=1, NSW=1, POTIM=0.015), and every key outside the
override set keeps the base value. -/
theorem claim_C5_dispersion_settings_merge (vis : VaspInputSet) (ukps : Dict)
    (k : String) :
    (Dict.get? (deriveDispVis vis ukps uisForce).user_incar_settings "EDIFF"
        = some (Val.vrat (1 / 100000000)) ∧
     Dict.get? (deriveDispVis vis ukps uisForce).user_incar_settings "IBRION"
        = some (Val.vint 2) ∧
     Dict.get? (deriveDispVis vis ukps uisForce).user_incar_settings "ISMEAR"
        = some (Val.vint 0) ∧
     Dict.get? (deriveDispVis vis ukps uisForce).user_incar_settings "ISPIN"
        = some (Val.vint 1) ∧
     Dict.get? (deriveDispVis vis ukps uisForce).user_incar_settings "NSW"
        = some (Val.vint 0)) ∧
    (Dict.get? (deriveDispVis vis ukps uisHessian).user_incar_settings "EDIFF"
        = some (Val.vrat (1 / 100000000)) ∧
     Dict.get? (deriveDispVis vis ukps uisHessian).user_incar_settings "IBRION"
        = some (Val.vint 6) ∧
     Dict.get? (deriveDispVis vis ukps uisHessian).user_incar_settings "ISMEAR"
        = some (Val.vint 0) ∧
     Dict.get? (deriveDispVis vis ukps uisHessian).user_incar_settings "ISPIN"
        = some (Val.vint 1) ∧
     Dict.get? (deriveDispVis vis ukps uisHessian).user_incar_settings "NSW"
        = some (Val.vint 1) ∧
     Dict.get? (deriveDispVis vis ukps uisHessian).user_incar_settings "POTIM"
        = some (Val.vrat (15 / 1000))) ∧
    (k ≠ "EDIFF" → k ≠ "IBRION" → k ≠ "ISMEAR" → k ≠ "ISPIN" → k ≠ "NSW" →
      Dict.get? (deriveDispVis vis ukps uisForce).user_incar_settings k
        = Dict.get? vis.user_incar_settings k) ∧
    (k ≠ "EDIFF" → k ≠ "IBRION" → k ≠ "ISMEAR" → k ≠ "ISPIN" → k ≠ "NSW" →
     k ≠ "POTIM" →
      Dict.get? (deriveDispVis vis ukps uisHessian).user_incar_settings k
        = Dict.get? vis.user_incar_settings k) := by
  refine ⟨⟨?_, ?_, ?_, ?_, ?_⟩, ⟨?_, ?_, ?_, ?_, ?_, ?_⟩, ?_, ?_⟩ <;> intros <;>
    simp_all [deriveDispVis_uis, Dict.update, uis_common, uisForce, uisHessian,
      Dict.get?_insert_self, Dict.get?_insert_ne, Ne.symm]

/-- Witness for C5 at a concrete base category (`NSW` overridden, `SIGMA`
preserved) and the concrete non-override key `SIGMA`. -/
theorem claim_C5_witness :
    Dict.get? (deriveDispVis
        { user_incar_settings := [("NSW", Val.vint 99), ("SIGMA", Val.vrat (1 / 20))],
          user_kpoints_settings := [], rest := [] }
        [] uisForce).user_incar_settings "NSW" = some (Val.vint 0) ∧
    Dict.get? (deriveDispVis
        { user_incar_settings := [("NSW", Val.vint 99), ("SIGMA", Val.vrat (1 / 20))],
          user_kpoints_settings := [], rest := [] }
        [] uisForce).user_incar_settings "SIGMA" = some (Val.vrat (1 / 20)) :=
  ⟨(claim_C5_dispersion_settings_merge
      { user_incar_settings := [("NSW", Val.vint 99), ("SIGMA", Val.vrat (1 / 20))],
        user_kpoints_settings := [], rest := [] } [] "SIGMA").1.2.2.2.2,
   by
    have h := (claim_C5_dispersion_settings_merge
      { user_incar_settings := [("NSW", Val.vint 99), ("SIGMA", Val.vrat (1 / 20))],
        user_kpoints_settings := [], rest := [] } [] "SIGMA").2.2.1
      (by decide) (by decide) (by decide) (by decide) (by decide)
    rw [h]
    rfl⟩

/-- Projection of the dispersion-settings derivation to the KPOINTS category:
a truthy kpoints override replaces the category wholesale. -/
theorem deriveDispVis_uks (vis : VaspInputSet) (ukps modeDict : Dict) :
    (deriveDispVis vis ukps modeDict).user_kpoints_settings
      = if ukps.truthy then ukps else vis.user_kpoints_settings := by
  by_cases h : ukps.truthy <;>
    simp [deriveDispVis, VaspInputSet.as_dict, VaspInputSet.from_dict, h]

/-- Projection of the dispersion-settings derivation to the untouched
remainder of the serialized form. -/
theorem deriveDispVis_rest (vis : VaspInputSet) (ukps modeDict : Dict) :
    (deriveDispVis vis ukps modeDict).rest = vis.rest := by
  by_cases h : ukps.truthy <;>
    simp [deriveDispVis, VaspInputSet.as_dict, VaspInputSet.from_dict, h]

/-- C6: the dispersion-settings derivation is idempotent for both valid
modes: deriving again from an already-derived input set with the same
kpoints override yields the identical input set. -/
theorem claim_C6_derivation_idempotent (vis : VaspInputSet) (ukps : Dict) :
    deriveDispVis (deriveDispVis vis ukps uisForce) ukps uisForce
      = deriveDispVis vis ukps uisForce ∧
    deriveDispVis (deriveDispVis vis ukps uisHessian) ukps uisHessian
      = deriveDispVis vis ukps uisHessian := by
  constructor <;>
  · apply VaspInputSet.ext
    · rw [deriveDispVis_uis, deriveDispVis_uis]
      simp only [Dict.update, uis_common, uisForce, uisHessian, List.foldl]
      simp [Dict.insert_eq_self_of_get?, Dict.get?_insert_self,
        Dict.get?_insert_ne]
    · rw [deriveDispVis_uks, deriveDispVis_uks]
      by_cases h : ukps.truthy <;> simp [h]
    · rw [deriveDispVis_rest, deriveDispVis_rest]

/-- Value returned by `pop`: the mapping's value at the key. -/
theorem Dict.pop_fst (d : Dict) (k : String) :
    (Dict.pop d k).1 = Dict.get? d k := by
  induction d with
  | nil => rfl
  | cons hd tl ih =>
    obtain ⟨k', v⟩ := hd
    by_cases h : k' = k <;> simp [Dict.pop, Dict.get?, h, ih]

/-- Keys absent from a dict read as `none`. -/
theorem Dict.get?_eq_none_of_not_mem_keys (d : Dict) (k : String)
    (h : k ∉ List.map Prod.fst d) : Dict.get? d k = none := by
  induction d with
  | nil => rfl
  | cons hd tl ih =>
    obtain ⟨k', v⟩ := hd
    simp only [List.map_cons, List.mem_cons, not_or] at h
    rw [Dict.get?_cons, if_neg (fun e => h.1 e.symm)]
    exact ih h.2

/-- After popping a key from a dict with distinct keys, the key reads as
`none`. -/
theorem Dict.get?_pop_self (d : Dict) (k : String)
    (hnd : (List.map Prod.fst d).Nodup) :
    Dict.get? (Dict.pop d k).2 k = none := by
  induction d with
  | nil => rfl
  | cons hd tl ih =>
    obtain ⟨k', v⟩ := hd
    simp only [List.map_cons, List.nodup_cons] at hnd
    by_cases h : k' = k
    · subst h
      simp only [Dict.pop, if_pos rfl]
      exact Dict.get?_eq_none_of_not_mem_keys tl k' hnd.1
    · simp only [Dict.pop, if_neg h]
      rw [Dict.get?_cons, if_neg h]
      exact ih hnd.2

/-- Popping one key leaves every other key's value unchanged. -/
theorem Dict.get?_pop_ne (d : Dict) (k k' : String) (h : k' ≠ k) :
    Dict.get? (Dict.pop d k).2 k' = Dict.get? d k' := by
  induction d with
  | nil => rfl
  | cons hd tl ih =>
    obtain ⟨k₀, v⟩ := hd
    by_cases h0 : k₀ = k
    · subst h0
      have hk : k₀ ≠ k' := fun e => h e.symm
      simp [Dict.pop, Dict.get?_cons, hk]
    · by_cases h1 : k₀ = k'
      · simp [Dict.pop, h0, Dict.get?_cons, h1, h]
      · simp [Dict.pop, h0, Dict.get?_cons, h1, ih]

/-- The keys remaining after a pop form a sublist of the original keys. -/
theorem Dict.pop_keys_sublist (d : Dict) (k : String) :
    List.Sublist (List.map Prod.fst (Dict.pop d k).2) (List.map Prod.fst d) := by
  induction d with
  | nil => simp [Dict.pop]
  | cons hd tl ih =>
    obtain ⟨k₀, v⟩ := hd
    by_cases h : k₀ = k
    · simp only [Dict.pop, if_pos h, List.map_cons]
      exact List.sublist_cons_self _ _
    · simp only [Dict.pop, if_neg h, List.map_cons]
      exact List.Sublist.cons₂ _ ih

/-- Removal-loop invariant for a key absent from the active dict: the loop
never adds it to either the active dict or the removed-settings record. -/
theorem rmFold_absent (rm : List String) (cfg rmc : Dict) (k : String)
    (h : Dict.get? cfg k = none) :
    Dict.get? (rm.foldl rmStep (cfg, rmc)).1 k = none ∧
    Dict.get? (rm.foldl rmStep (cfg, rmc)).2 k = Dict.get? rmc k := by
  induction rm generalizing cfg rmc with
  | nil => exact ⟨h, rfl⟩
  | cons j tl ih =>
    rw [List.foldl_cons]
    by_cases hc : Dict.containsKey cfg j
    · have hjk : j ≠ k := fun e => by
        subst e
        simp [Dict.containsKey, h] at hc
      have h1 : Dict.get? (Dict.pop cfg j).2 k = none := by
        rw [Dict.get?_pop_ne _ _ _ (fun e => hjk e.symm)]
        exact h
      have hstep : rmStep (cfg, rmc) j
          = ((Dict.pop cfg j).2,
             Dict.insert rmc j (((Dict.pop cfg j).1).getD Val.vnone)) := by
        simp [rmStep, hc]
      rw [hstep]
      have hrec := ih (Dict.pop cfg j).2
        (Dict.insert rmc j (((Dict.pop cfg j).1).getD Val.vnone)) h1
      refine ⟨hrec.1, ?_⟩
      rw [hrec.2, Dict.get?_insert_ne _ _ _ _ hjk]
    · have hstep : rmStep (cfg, rmc) j = (cfg, rmc) := by simp [rmStep, hc]
      rw [hstep]
      exact ih cfg rmc h

/-- Removal-loop invariant for a listed key present in the active dict (keys
distinct, no removed-settings entry yet): the loop removes it from the active
dict and records its original value. -/
theorem rmFold_present (rm : List String) (cfg rmc : Dict) (k : String)
    (v : Val) (hmem : k ∈ rm) (hnd : (List.map Prod.fst cfg).Nodup)
    (hv : Dict.get? cfg k = some v) (hrmc : Dict.get? rmc k = none) :
    Dict.get? (rm.foldl rmStep (cfg, rmc)).1 k = none ∧
    Dict.get? (rm.foldl rmStep (cfg, rmc)).2 k = some v := by
  induction rm generalizing cfg rmc with
  | nil => cases hmem
  | cons j tl ih =>
    rw [List.foldl_cons]
    by_cases hjk : j = k
    · subst hjk
      have hc : Dict.containsKey cfg j = true := by
        simp [Dict.containsKey, hv]
      have hstep : rmStep (cfg, rmc) j
          = ((Dict.pop cfg j).2,
             Dict.insert rmc j (((Dict.pop cfg j).1).getD Val.vnone)) := by
        simp [rmStep, hc]
      rw [hstep]
      have h1 : Dict.get? (Dict.pop cfg j).2 j = none :=
        Dict.get?_pop_self cfg j hnd
      have h2 : ((Dict.pop cfg j).1).getD Val.vnone = v := by
        rw [Dict.pop_fst, hv]
        rfl
      rw [h2]
      have hrec := rmFold_absent tl (Dict.pop cfg j).2
        (Dict.insert rmc j v) j h1
      exact ⟨hrec.1, by rw [hrec.2, Dict.get?_insert_self]⟩
    · have hmem' : k ∈ tl := by
        rcases List.mem_cons.mp hmem with e | e
        · exact absurd e.symm hjk
        · exact e
      by_cases hc : Dict.containsKey cfg j
      · have hstep : rmStep (cfg, rmc) j
            = ((Dict.pop cfg j).2,
               Dict.insert rmc j (((Dict.pop cfg j).1).getD Val.vnone)) := by
          simp [rmStep, hc]
        rw [hstep]
        refine ih (Dict.pop cfg j).2 _ hmem' ?_ ?_ ?_
        · exact ((Dict.pop_keys_sublist cfg j).nodup hnd)
        · rw [Dict.get?_pop_ne _ _ _ (fun e => hjk e.symm)]
          exact hv
        · rw [Dict.get?_insert_ne _ _ _ _ (fun e => hjk e)]
          exact hrmc
      · have hstep : rmStep (cfg, rmc) j = (cfg, rmc) := by simp [rmStep, hc]
        rw [hstep]
        exact ih cfg rmc hmem' hnd hv hrmc

/-- C7: for an `MPRelaxSetEx` built with a removal list, each listed key
present in the base INCAR category is removed from the active INCAR dict and
recorded with its original value in `rm_config_dict`; each listed (or any
other) key absent from the base category is silently ignored — the
constructor is total, the key stays absent, and no removed-settings entry
appears. -/
theorem claim_C7_rm_incar_settings (configINCAR : Dict) (rm : List String)
    (ukps : Dict) (k : String)
    (hnd : (List.map Prod.fst configINCAR).Nodup) :
    (k ∈ rm → ∀ v, Dict.get? configINCAR k = some v →
      Dict.get? (mkMPRelaxSetEx configINCAR rm ukps).config_INCAR k = none ∧
      Dict.get? (mkMPRelaxSetEx configINCAR rm ukps).rm_config_INCAR k = some v) ∧
    (Dict.get? configINCAR k = none →
      Dict.get? (mkMPRelaxSetEx configINCAR rm ukps).config_INCAR k = none ∧
      Dict.get? (mkMPRelaxSetEx configINCAR rm ukps).rm_config_INCAR k = none) := by
  constructor
  · intro hmem v hv
    exact rmFold_present rm configINCAR [] k v hmem hnd hv rfl
  · intro h
    exact rmFold_absent rm configINCAR [] k h

/-- Witness for C7: removing `["EDIFF", "MAGMOM"]` from a base category
holding `EDIFF` (but no `MAGMOM`) removes and records `EDIFF` while ignoring
`MAGMOM`. -/
theorem claim_C7_witness :
    Dict.get? (mkMPRelaxSetEx
      [("EDIFF", Val.vrat (1 / 10000)), ("NSW", Val.vint 99)]
      ["EDIFF", "MAGMOM"] []).config_INCAR "EDIFF" = none ∧
    Dict.get? (mkMPRelaxSetEx
      [("EDIFF", Val.vrat (1 / 10000)), ("NSW", Val.vint 99)]
      ["EDIFF", "MAGMOM"] []).rm_config_INCAR "EDIFF"
      = some (Val.vrat (1 / 10000)) ∧
    Dict.get? (mkMPRelaxSetEx
      [("EDIFF", Val.vrat (1 / 10000)), ("NSW", Val.vint 99)]
      ["EDIFF", "MAGMOM"] []).rm_config_INCAR "MAGMOM" = none := by
  refine ⟨?_, ?_, ?_⟩
  · exact ((claim_C7_rm_incar_settings
      [("EDIFF", Val.vrat (1 / 10000)), ("NSW", Val.vint 99)]
      ["EDIFF", "MAGMOM"] [] "EDIFF" (by simp)).1
      (by simp) (Val.vrat (1 / 10000)) rfl).1
  · exact ((claim_C7_rm_incar_settings
      [("EDIFF", Val.vrat (1 / 10000)), ("NSW", Val.vint 99)]
      ["EDIFF", "MAGMOM"] [] "EDIFF" (by simp)).1
      (by simp) (Val.vrat (1 / 10000)) rfl).2
  · exact ((claim_C7_rm_incar_settings
      [("EDIFF", Val.vrat (1 / 10000)), ("NSW", Val.vint 99)]
      ["EDIFF", "MAGMOM"] [] "MAGMOM" (by simp)).2 rfl).2

/-- Truthiness of a dict holding a key. -/
theorem Dict.truthy_of_get?_eq_some (d : Dict) (k : String) (v : Val)
    (h : Dict.get? d k = some v) : d.truthy = true := by
  cases d with
  | nil => simp [Dict.get?] at h
  | cons hd tl => rfl

/-- C8: for every constructor-built `MPRelaxSetEx` instance, the `kpoints`
property returns a gamma-centered uniform grid built from the supplied
`kpts` triple — whether supplied through the `user_kpoints_settings`
parameter or (vacuously, since the external base config's KPOINTS category
carries no `kpts` entry) already present in the settings category — and in
particular `{"kpts": [2, 2, 2]}` yields the gamma grid (2, 2, 2); with no
`kpts` entry supplied it returns the base class's default k-point result. -/
theorem claim_C8_kpoints_property (configINCAR : Dict) (rm : List String)
    (ukps : Dict) :
    (∀ l : List Int, l ≠ [] → Dict.get? ukps "kpts" = some (Val.vilist l) →
      (mkMPRelaxSetEx configINCAR rm ukps).kpoints = .gammaAutomatic l) ∧
    (mkMPRelaxSetEx configINCAR rm [("kpts", Val.vilist [2, 2, 2])]).kpoints
      = .gammaAutomatic [2, 2, 2] ∧
    (Dict.get? ukps "kpts" = none →
      (mkMPRelaxSetEx configINCAR rm ukps).kpoints = .baseDefault) := by
  refine ⟨?_, ?_, ?_⟩
  · intro l hl hk
    have ht : ukps.truthy = true :=
      Dict.truthy_of_get?_eq_some ukps "kpts" (Val.vilist l) hk
    simp [MPRelaxSetEx.kpoints, mkMPRelaxSetEx, ht, hk, Val.truthy, hl]
  · rfl
  · intro hk
    by_cases ht : ukps.truthy
    · simp [MPRelaxSetEx.kpoints, mkMPRelaxSetEx, ht, hk]
    · simp [MPRelaxSetEx.kpoints, mkMPRelaxSetEx, ht,
        MPRelaxSet_CONFIG_KPOINTS, Dict.get?]

/-- Witness for C8: an explicit grid override yields the gamma grid, and a
kpoints override without a `kpts` entry (a grid density) falls back to the
base class's default. -/
theorem claim_C8_witness :
    (mkMPRelaxSetEx [] [] [("kpts", Val.vilist [2, 2, 2])]).kpoints
      = .gammaAutomatic [2, 2, 2] ∧
    (mkMPRelaxSetEx [] [] [("grid_density", Val.vint 7000)]).kpoints
      = .baseDefault :=
  ⟨(claim_C8_kpoints_property [] [] [("kpts", Val.vilist [2, 2, 2])]).1
      [2, 2, 2] (by decide) rfl,
   (claim_C8_kpoints_property [] [] [("grid_density", Val.vint 7000)]).2.2 rfl⟩

/-- C10 counterexample: the claim asserts that with
`override_default_vasp_params` left at its default `None`, construction of
`OptimizeStepFW` always raises `TypeError` for every `step_index`, even when
a `vasp_input_set` is provided. At `step_index = 0` with a provided input set
the Python `or` short-circuits before the `**` unpacking, and construction
succeeds. -/
theorem claim_C10_counterexample :
    exceptIsOk (OptimizeStepFW_init "Si" 0 "Relax"
      (some MPRelaxSet_force_gamma) none) = true := rfl

/-- C10 (amended): with `override_default_vasp_params = None`, construction
raises `TypeError` whenever `step_index` is truthy (nonzero), and at
`step_index = 0` exactly when no `vasp_input_set` is provided; at
`step_index = 0` with a provided input set it succeeds. -/
theorem claim_C10_amended_none_override (formula name : String)
    (step_index : Int) (vis : Option VaspInputSet) :
    (step_index ≠ 0 →
      OptimizeStepFW_init formula step_index name vis none
        = .error (.typeError starStarNoneMsg)) ∧
    OptimizeStepFW_init formula 0 name none none
      = .error (.typeError starStarNoneMsg) ∧
    (∀ v : VaspInputSet,
      exceptIsOk (OptimizeStepFW_init formula 0 name (some v) none) = true) := by
  refine ⟨?_, rfl, fun v => rfl⟩
  intro h
  simp [OptimizeStepFW_init, h]

/-- Witness for C10: at the concrete truthy step index 1 the construction
with a `None` override fails, and at step index 0 with a provided input set
it succeeds. -/
theorem claim_C10_witness :
    OptimizeStepFW_init "Si" 1 "Relax" none none
      = .error (.typeError starStarNoneMsg) ∧
    exceptIsOk (OptimizeStepFW_init "Si" 0 "Relax"
      (some { user_incar_settings := [], user_kpoints_settings := [],
              rest := [] }) none) = true :=
  ⟨(claim_C10_amended_none_override "Si" "Relax" 1 none).1 (by decide),
   (claim_C10_amended_none_override "Si" "Relax" 1 none).2.2
     { user_incar_settings := [], user_kpoints_settings := [], rest := [] }⟩

/-- Frame property of the relaxation derivation: store cells below the
original length are untouched; exactly one fresh cell is allocated. -/
theorem deriveRelaxVisH_frame (s : Store) (o : VisRef) (u : Dict) (i : Nat)
    (hi : i < s.length) :
    ((deriveRelaxVisH s o u).2)[i]? = s[i]? ∧
    ((deriveRelaxVisH s o u).2).length = s.length + 1 := by
  constructor
  · simp only [deriveRelaxVisH, VisRef.as_dict, alloc, storeSet, storeGet]
    rw [List.getElem?_set_ne (Nat.ne_of_gt hi), List.getElem?_append, if_pos hi]
  · simp [deriveRelaxVisH, VisRef.as_dict, alloc, storeSet, storeGet]

/-- Frame property of the dispersion-prefix derivation: store cells below
the original length are untouched; exactly one fresh cell is allocated. -/
theorem deriveDispPrefixH_frame (s : Store) (o : VisRef) (u : Dict) (i : Nat)
    (hi : i < s.length) :
    ((deriveDispPrefixH s o u).2)[i]? = s[i]? ∧
    ((deriveDispPrefixH s o u).2).length = s.length + 1 := by
  constructor
  · simp only [deriveDispPrefixH, VisRef.as_dict, alloc, storeSet, storeGet]
    rw [List.getElem?_set_ne (Nat.ne_of_gt hi), List.getElem?_append, if_pos hi]
  · simp [deriveDispPrefixH, VisRef.as_dict, alloc, storeSet, storeGet]

/-- The dict form built by the dispersion-prefix derivation references the
freshly allocated copy, not the base object's cell. -/
theorem deriveDispPrefixH_ref (s : Store) (o : VisRef) (u : Dict) :
    (deriveDispPrefixH s o u).1.uisRef = s.length := by
  by_cases h : u.truthy <;>
    simp [deriveDispPrefixH, VisRef.as_dict, alloc, h]

/-- Frame property of a full settings derivation: store cells below the
original length are untouched; exactly one fresh cell is allocated. -/
theorem deriveModeH_frame (s : Store) (o : VisRef) (u md : Dict) (i : Nat)
    (hi : i < s.length) :
    ((deriveModeH s o u md).2)[i]? = s[i]? ∧
    ((deriveModeH s o u md).2).length = s.length + 1 := by
  constructor
  · simp only [deriveModeH, storeSet]
    rw [List.getElem?_set_ne (by rw [deriveDispPrefixH_ref]; omega)]
    exact (deriveDispPrefixH_frame s o u i hi).1
  · simp only [deriveModeH, storeSet]
    rw [List.length_set, (deriveDispPrefixH_frame s o u i hi).2]

/-- Store left by the dispersion assembler in force mode. -/
theorem get_wf_dispersion_heap_force (s : Store) (o : VisRef) (u : Dict)
    (ob : Bool) :
    get_wf_dispersion_heap s o "force" u ob
      = (.ok (), (deriveModeH
          (if ob = true then (deriveRelaxVisH s o u).2 else s) o u uisForce).2) := rfl

/-- Store left by the dispersion assembler in hessian mode. -/
theorem get_wf_dispersion_heap_hessian (s : Store) (o : VisRef) (u : Dict)
    (ob : Bool) :
    get_wf_dispersion_heap s o "hessian" u ob
      = (.ok (), (deriveModeH
          (if ob = true then (deriveRelaxVisH s o u).2 else s) o u uisHessian).2) := rfl

/-- Store left by the dispersion assembler when the invalid-mode error
fires. -/
theorem get_wf_dispersion_heap_invalid (s : Store) (o : VisRef)
    (mode : String) (u : Dict) (ob : Bool) (h1 : mode ≠ "force")
    (h2 : mode ≠ "hessian") :
    get_wf_dispersion_heap s o mode u ob
      = (.error (.invalidMode "Dispersion workflow mode should be force or hessian."),
         (deriveDispPrefixH
           (if ob = true then (deriveRelaxVisH s o u).2 else s) o u).2) := by
  simp only [get_wf_dispersion_heap, if_neg h1, if_neg h2]

/-- Frame property of the optional relaxation phase: cells below the
original length are untouched and the store only grows. -/
theorem relaxPhase_frame (s : Store) (o : VisRef) (u : Dict) (ob : Bool)
    (i : Nat) (hi : i < s.length) :
    ((if ob = true then (deriveRelaxVisH s o u).2 else s) : Store)[i]? = s[i]?
      ∧ s.length ≤ ((if ob = true then (deriveRelaxVisH s o u).2 else s) : Store).length := by
  cases ob
  · exact ⟨by simp, by simp⟩
  · have h := deriveRelaxVisH_frame s o u i hi
    simp only [if_pos]
    exact ⟨h.1, by omega⟩

/-- Frame property of the dispersion assembler on the settings-dict store:
cells below the original length are untouched and the store only grows. -/
theorem get_wf_dispersion_heap_frame (s : Store) (o : VisRef) (mode : String)
    (u : Dict) (ob : Bool) (i : Nat) (hi : i < s.length) :
    ((get_wf_dispersion_heap s o mode u ob).2)[i]? = s[i]? ∧
    s.length ≤ ((get_wf_dispersion_heap s o mode u ob).2).length := by
  have hs0 := relaxPhase_frame s o u ob i hi
  have hlen0 : i < ((if ob = true then (deriveRelaxVisH s o u).2 else s) : Store).length :=
    lt_of_lt_of_le hi hs0.2
  by_cases h1 : mode = "force"
  · subst h1
    rw [get_wf_dispersion_heap_force]
    dsimp only
    have h := deriveModeH_frame
      (if ob = true then (deriveRelaxVisH s o u).2 else s) o u uisForce i hlen0
    exact ⟨h.1.trans hs0.1, by omega⟩
  · by_cases h2 : mode = "hessian"
    · subst h2
      rw [get_wf_dispersion_heap_hessian]
      dsimp only
      have h := deriveModeH_frame
        (if ob = true then (deriveRelaxVisH s o u).2 else s) o u uisHessian i hlen0
      exact ⟨h.1.trans hs0.1, by omega⟩
    · rw [get_wf_dispersion_heap_invalid s o mode u ob h1 h2]
      dsimp only
      have h := deriveDispPrefixH_frame
        (if ob = true then (deriveRelaxVisH s o u).2 else s) o u i hlen0
      exact ⟨h.1.trans hs0.1, by omega⟩

/-- Frame property of the thermal-conductivity assembler on the
settings-dict store. -/
theorem get_wf_thermal_conductivity_heap_frame (s : Store) (o : VisRef)
    (mode : String) (u : Dict) (ob : Bool) (i : Nat) (hi : i < s.length) :
    ((get_wf_thermal_conductivity_heap s o mode u ob).2)[i]? = s[i]? ∧
    s.length ≤ ((get_wf_thermal_conductivity_heap s o mode u ob).2).length := by
  have hd := get_wf_dispersion_heap_frame s o mode u ob i hi
  have hlen : i < ((get_wf_dispersion_heap s o mode u ob).2).length :=
    lt_of_lt_of_le hi hd.2
  have hm := deriveModeH_frame (get_wf_dispersion_heap s o mode u ob).2 o u
    uisForce i hlen
  by_cases h1 : mode = "force"
  · subst h1
    simp only [get_wf_thermal_conductivity_heap, get_wf_dispersion_heap_force]
    rw [get_wf_dispersion_heap_force] at hm hd
    dsimp only at hm hd
    exact ⟨hm.1.trans hd.1, by omega⟩
  · by_cases h2 : mode = "hessian"
    · subst h2
      simp only [get_wf_thermal_conductivity_heap,
        get_wf_dispersion_heap_hessian]
      rw [get_wf_dispersion_heap_hessian] at hm hd
      dsimp only at hm hd
      exact ⟨hm.1.trans hd.1, by omega⟩
    · simp only [get_wf_thermal_conductivity_heap,
        get_wf_dispersion_heap_invalid s o mode u ob h1 h2]
      rw [get_wf_dispersion_heap_invalid s o mode u ob h1 h2] at hd
      exact hd

/-- C4: neither assembler mutates the base input-set object: under the heap
model of Python dict aliasing, the store cell holding the base object's
nested `user_incar_settings` mapping reads the same before and after
assembly, for every mode (valid or not), kpoints override, and
optimize flag — every in-place `.update` targets a fresh cell allocated by
`as_dict`, so the base object's serialized form is unchanged. (Its other
categories are carried by value in the model because the assemblers only
rebind them, never update them in place.) -/
theorem claim_C4_base_not_mutated (s : Store) (o : VisRef) (mode : String)
    (ukps : Dict) (ob : Bool) (h : o.uisRef < s.length) :
    ((get_wf_dispersion_heap s o mode ukps ob).2)[o.uisRef]? = s[o.uisRef]? ∧
    ((get_wf_thermal_conductivity_heap s o mode ukps ob).2)[o.uisRef]?
      = s[o.uisRef]? :=
  ⟨(get_wf_dispersion_heap_frame s o mode ukps ob o.uisRef h).1,
   (get_wf_thermal_conductivity_heap_frame s o mode ukps ob o.uisRef h).1⟩

/-- Witness for C4 at a concrete one-cell store holding a base INCAR
category with an `NSW` entry. -/
theorem claim_C4_witness :
    ((get_wf_dispersion_heap [[("NSW", Val.vint 5)]]
        { uisRef := 0, user_kpoints_settings := [], rest := [] } "force"
        [("grid_density", Val.vint 7000)] true).2)[0]?
      = ([[("NSW", Val.vint 5)]] : Store)[0]? ∧
    ((get_wf_thermal_conductivity_heap [[("NSW", Val.vint 5)]]
        { uisRef := 0, user_kpoints_settings := [], rest := [] } "force"
        [("grid_density", Val.vint 7000)] true).2)[0]?
      = ([[("NSW", Val.vint 5)]] : Store)[0]? :=
  claim_C4_base_not_mutated [[("NSW", Val.vint 5)]]
    { uisRef := 0, user_kpoints_settings := [], rest := [] } "force"
    [("grid_density", Val.vint 7000)] true (by decide)

/-- C9: every workflow graph either assembler returns is acyclic by
construction: each unit's parents are units constructed earlier in the same
assembly call, so dependency edges only point backwards in construction
order. -/
theorem claim_C9_graphs_acyclic (formula : String) (vis : Option VaspInputSet)
    (vc tc : String) (db : Option String) (sc : List (List Int)) (c : ℚ)
    (ukps : Dict) (tag : String) (ob : Bool) :
    acyclicOk (wfUnits (get_wf_dispersion formula vis vc db "force" sc ukps ob tag)) = true ∧
    acyclicOk (wfUnits (get_wf_dispersion formula vis vc db "hessian" sc ukps ob tag)) = true ∧
    acyclicOk (wfUnits (get_wf_thermal_conductivity formula vis "force" vc tc db sc c ukps ob tag)) = true ∧
    acyclicOk (wfUnits (get_wf_thermal_conductivity formula vis "hessian" vc tc db sc c ukps ob tag)) = true := by
  cases ob <;> exact ⟨rfl, rfl, rfl, rfl⟩

end Atomate


